import Mathlib

/-!
Verification of the lexical-context classifier, safe-edit gate, syntax
validator and fix history of the code-fixer core
(`src/components/codeFixer/shared/contextAnalyzer.js`,
`src/components/codeFixer/shared/codeValidator.js`,
`src/components/codeFixer/shared/fixerBase.js`,
`src/components/globalFunction.jsx`).

Buffers are modelled as `List Char`; JS numbers used as indices/counters are
modelled as `Int` (with `Nat` for loop indices that start at 0 and only grow);
JS `undefined` reads past the end of the buffer are modelled with `Option Char`;
a thrown JS exception is modelled as `Option.none` in the result type of the
function that throws. The two external parsing facilities used by
`validateSyntax` (`new Function(code)` and Babel's `parse`) are not part of this
repository; they enter the model as oracle parameters: `fn : List Char → Option
JsError` (`none` = the constructor call succeeds, `some e` = it throws `e`) and
`babel : List Char → Option String` (`none` = parse success, `some msg` = parse
error message).
-/

/-- Kind of comment recorded in `commentType` (`'single'` / `'multi'`). -/
inductive CommentType where
  | single
  | multi
deriving DecidableEq, Repr

/-- The classification record returned by `analyzeAbsolutePosition`.
`stringChar`/`commentType` are `none` when the corresponding key is absent
on the JS object. -/
structure LexicalContext where
  inString : Bool
  inComment : Bool
  inRegex : Bool
  inTemplate : Bool
  inTemplateExpression : Bool
  stringChar : Option Char
  commentType : Option CommentType
deriving DecidableEq, Repr

/-- The initial `context` object of `analyzeAbsolutePosition` (all flags
false, no `stringChar`/`commentType` keys). -/
def defaultLexicalContext : LexicalContext :=
  { inString := false, inComment := false, inRegex := false,
    inTemplate := false, inTemplateExpression := false,
    stringChar := none, commentType := none }

/-- Characters matched by the JS regex `/\s/` (ECMAScript WhiteSpace and
LineTerminator characters). -/
def jsWhitespace (c : Char) : Bool :=
  c == ' ' || c == '\t' || c == '\n' || c == '\x0b' || c == '\x0c' ||
  c == '\r' || c == '\xa0' || c == '\u1680' ||
  (('\u2000' ≤ c) && (c ≤ '\u200a')) ||
  c == '\u2028' || c == '\u2029' || c == '\u202f' || c == '\u205f' ||
  c == '\u3000' || c == '\ufeff'

/-- Characters matched by the JS regex `/[a-zA-Z_$]/` used by
`couldBeRegexStart`'s keyword scan. -/
def isWordChar (c : Char) : Bool :=
  (('a' ≤ c) && (c ≤ 'z')) || (('A' ≤ c) && (c ≤ 'Z')) || c == '_' || c == '$'

/-- The fixed punctuation set `regexPreceders` of `couldBeRegexStart`. -/
def regexPreceders : List Char :=
  ['(', '[', '\x7b', ',', ';', ':', '!', '&', '|', '?', '+', '-', '*', '/',
   '%', '=', '<', '>', '^', '~']

/-- The fixed keyword set of `couldBeRegexStart`. -/
def regexKeywords : List (List Char) :=
  ["return".toList, "throw".toList, "case".toList, "in".toList, "of".toList,
   "delete".toList, "void".toList, "typeof".toList, "new".toList,
   "instanceof".toList]

/-- Backward whitespace scan of `couldBeRegexStart`
(`let i = position - 1; while (i >= 0 && /\s/.test(code[i])) i--`).
The argument and result encode the JS index `i` as `i + 1`, so that `0`
stands for the JS index `-1`. -/
def skipWsBack (code : List Char) : Nat → Nat
  | 0 => 0
  | j + 1 => if jsWhitespace (code.getD j ' ') then skipWsBack code j else j + 1

/-- Backward word scan of `couldBeRegexStart`
(`while (wordStart >= 0 && /[a-zA-Z_$]/.test(code[wordStart])) wordStart--`),
with the same `i + 1` index encoding as `skipWsBack`. -/
def skipWordBack (code : List Char) : Nat → Nat
  | 0 => 0
  | j + 1 => if isWordChar (code.getD j ' ') then skipWordBack code j else j + 1

/-- `couldBeRegexStart(code, position)`: scan backward over whitespace to the
nearest non-whitespace character; `true` at the start of the buffer, or when
that character is in `regexPreceders`, or when the word ending there is in the
keyword set. -/
def couldBeRegexStart (code : List Char) (position : Nat) : Bool :=
  let j := skipWsBack code position
  if j == 0 then true
  else
    let prevChar := code.getD (j - 1) ' '
    if regexPreceders.contains prevChar then true
    else
      let wordStart := skipWordBack code j
      let word := (code.drop wordStart).take (j - wordStart)
      regexKeywords.contains word

/-- Backslash count of `isEscaped(code, position)`
(`while (i >= 0 && code[i] === '\\') { escapeCount++; i--; }` starting at
`position - 1`); the argument encodes the start index as in `skipWsBack`. -/
def backslashRun (code : List Char) : Nat → Nat
  | 0 => 0
  | j + 1 => if code.getD j ' ' == '\\' then backslashRun code j + 1 else 0

/-- `isEscaped(code, position)`: an odd number of backslashes immediately
precedes `position`. -/
def isEscaped (code : List Char) (position : Nat) : Bool :=
  backslashRun code position % 2 == 1

/-- The six pieces of scanner state of `analyzeAbsolutePosition`'s while loop
(plus the `regexContext` flag the source sets alongside `inRegex`). -/
structure ScanState where
  inSingleQuote : Bool
  inDoubleQuote : Bool
  inTemplate : Bool
  inSingleComment : Bool
  inMultiComment : Bool
  inRegex : Bool
  templateDepth : Int
  regexContext : Bool
deriving DecidableEq, Repr

/-- Scanner state at the top of `analyzeAbsolutePosition` (everything false,
depth 0). -/
def initScanState : ScanState :=
  { inSingleQuote := false, inDoubleQuote := false, inTemplate := false,
    inSingleComment := false, inMultiComment := false, inRegex := false,
    templateDepth := 0, regexContext := false }

/-- The `Handle regular expressions` / `End regex` pair of guarded updates in
`analyzeAbsolutePosition`'s loop body: a `/` outside quotes/templates with a
positive `couldBeRegexStart` sets `inRegex`, and an unescaped `/` while
`inRegex` clears it again. -/
def regexOpenClose (code : List Char) (i : Nat) (s : ScanState) : ScanState :=
  let char := code.getD i ' '
  -- Handle regular expressions
  let s := if !s.inSingleQuote && !s.inDoubleQuote && !s.inTemplate && char == '/'
      && couldBeRegexStart code i then
    { s with inRegex := true, regexContext := true }
  else s
  -- End regex
  if s.inRegex && char == '/' && !isEscaped code i then
    { s with inRegex := false, regexContext := false }
  else s

/-- The `Handle strings and templates` block of `analyzeAbsolutePosition`'s
loop body (executed when not in a regex), followed by the loop's `i++`
(or the two-character skip of a `${`). -/
def stringTemplateStep (code : List Char) (i : Nat) (s : ScanState) : ScanState × Nat :=
  let char := code.getD i ' '
  let nextChar := code.get? (i + 1)
  -- Single quotes
  let s := if char == '\x27' && !s.inDoubleQuote && !s.inTemplate then
    { s with inSingleQuote := !s.inSingleQuote }
  else s
  -- Double quotes
  let s := if char == '"' && !s.inSingleQuote && !s.inTemplate then
    { s with inDoubleQuote := !s.inDoubleQuote }
  else s
  -- Template literals
  let s := if char == '\x60' && !s.inSingleQuote && !s.inDoubleQuote then
    (if s.inTemplate then
      (if s.templateDepth - 1 == 0 then
        { s with templateDepth := s.templateDepth - 1, inTemplate := false }
      else
        { s with templateDepth := s.templateDepth - 1 })
    else
      { s with inTemplate := true, templateDepth := 1 })
  else s
  -- Template expressions
  if s.inTemplate && char == '$' && nextChar == some '\x7b' then
    ({ s with templateDepth := s.templateDepth + 1 }, i + 2)
  else
    let s := if s.inTemplate && char == '\x7d' && decide (1 < s.templateDepth) then
      { s with templateDepth := s.templateDepth - 1 }
    else s
    (s, i + 1)

/-- One iteration of `analyzeAbsolutePosition`'s while loop at index `i`:
returns the updated state and the next index (`i + 2` on the `continue`
paths that consume two characters, `i + 1` otherwise). Each guarded block
of the loop body appears in source order. -/
def scanStep (code : List Char) (i : Nat) (s : ScanState) : ScanState × Nat :=
  let char := code.getD i ' '
  let nextChar := code.get? (i + 1)
  -- Handle escape sequences
  if char == '\\' && (s.inSingleQuote || s.inDoubleQuote || s.inTemplate || s.inRegex) then
    (s, i + 2)
  -- Handle single-line comments
  else if !s.inSingleQuote && !s.inDoubleQuote && !s.inTemplate && !s.inMultiComment
      && !s.inRegex && char == '/' && nextChar == some '/' then
    ({ s with inSingleComment := true }, i + 2)
  else
    -- End single-line comment at newline
    let s := if s.inSingleComment && char == '\n' then { s with inSingleComment := false } else s
    -- Handle multi-line comments
    if !s.inSingleQuote && !s.inDoubleQuote && !s.inTemplate && !s.inSingleComment
        && !s.inRegex && char == '/' && nextChar == some '*' then
      ({ s with inMultiComment := true }, i + 2)
    -- End multi-line comment
    else if s.inMultiComment && char == '*' && nextChar == some '/' then
      ({ s with inMultiComment := false }, i + 2)
    -- Skip if in any comment
    else if s.inSingleComment || s.inMultiComment then
      (s, i + 1)
    else
      -- Handle regular expressions / End regex
      let s := regexOpenClose code i s
      -- Handle strings and templates (skip if in regex)
      if s.inRegex then (s, i + 1)
      else stringTemplateStep code i s

/-- The while loop `while (i < position && i < code.length)` of
`analyzeAbsolutePosition`, run with structural fuel. Each iteration advances
`i` by at least one, so `code.length` fuel (from `i = 0`) is never exhausted
while the guard holds. -/
def scanGo (code : List Char) (position : Int) : Nat → Nat → ScanState → ScanState
  | 0, _, s => s
  | fuel + 1, i, s =>
    if (i : Int) < position ∧ i < code.length then
      let p := scanStep code i s
      scanGo code position fuel p.2 p.1
    else s

/-- `analyzeAbsolutePosition(code, position)`: run the scanner over the prefix
`[0, position)` and assemble the `LexicalContext` from the final state. -/
def analyzeAbsolutePosition (code : List Char) (position : Int) : LexicalContext :=
  let s := scanGo code position code.length 0 initScanState
  let inString := s.inSingleQuote || s.inDoubleQuote
  let inComment := s.inSingleComment || s.inMultiComment
  { inString := inString
    inComment := inComment
    inRegex := s.inRegex
    inTemplate := s.inTemplate
    inTemplateExpression := s.inTemplate && decide (1 < s.templateDepth)
    stringChar :=
      if s.inTemplate then some '\x60'
      else if inString then some (if s.inSingleQuote then '\x27' else '"') else none
    commentType :=
      if inComment then some (if s.inSingleComment then CommentType.single else CommentType.multi)
      else none }

/-- `isInString(code, position)` (uncached). -/
def isInString (code : List Char) (position : Int) : Bool :=
  (analyzeAbsolutePosition code position).inString

/-- `isInComment(code, position)` (uncached). -/
def isInComment (code : List Char) (position : Int) : Bool :=
  (analyzeAbsolutePosition code position).inComment

/-- `isInRegex(code, position)` (uncached). -/
def isInRegex (code : List Char) (position : Int) : Bool :=
  (analyzeAbsolutePosition code position).inRegex

/-- `isInTemplateString(code, position)` (uncached). -/
def isInTemplateString (code : List Char) (position : Int) : Bool :=
  (analyzeAbsolutePosition code position).inTemplate

/-- `code.split('\n')` on a character buffer. -/
def splitOnNewline : List Char → List (List Char)
  | [] => [[]]
  | c :: rest =>
    match splitOnNewline rest with
    | [] => [[]]
    | l :: ls => if c == '\n' then [] :: l :: ls else (c :: l) :: ls

/-- `getAbsolutePosition(code, line, column)`: sum of the lengths (+1 for the
newline) of the first `line - 1` lines, plus `column - 1`. The JS loop reads
`lines[i].length` for every `i < line - 1` and therefore throws when
`line - 1` exceeds the number of lines; that throw is modelled as `none`. -/
def getAbsolutePosition (code : List Char) (line column : Int) : Option Int :=
  let lines := splitOnNewline code
  if (lines.length : Int) < line - 1 then none
  else
    some ((((lines.take (line - 1).toNat).map (fun l => (l.length : Int) + 1)).sum)
      + column - 1)

/-- The analyzer's `contextCache`: a JS `Map` keyed by the string
`` `${code.length}-${absolutePos}` `` (that string determines and is determined
by the pair `(code.length, absolutePos)`, which is the key used here), modelled
as an association list in insertion order. -/
abbrev ContextCache := List ((Nat × Int) × LexicalContext)

/-- `Map.get` on the cache. -/
def cacheLookup (cache : ContextCache) (k : Nat × Int) : Option LexicalContext :=
  match cache with
  | [] => none
  | (k', v) :: rest => if k' = k then some v else cacheLookup rest k

/-- `Map.set` on the cache: overwrite in place when the key is present,
append otherwise. -/
def cacheSet (cache : ContextCache) (k : Nat × Int) (v : LexicalContext) : ContextCache :=
  match cache with
  | [] => [(k, v)]
  | (k', v') :: rest => if k' = k then (k, v) :: rest else (k', v') :: cacheSet rest k v

/-- `analyzePosition(code, line, column)`: convert to an absolute offset
(propagating `getAbsolutePosition`'s throw), then return the cached context
for `(code.length, absolutePos)` when present, otherwise scan and cache.
Returns the context together with the analyzer's updated cache. -/
def analyzePosition (cache : ContextCache) (code : List Char) (line column : Int) :
    Option (LexicalContext × ContextCache) :=
  match getAbsolutePosition code line column with
  | none => none
  | some absolutePos =>
    let cacheKey : Nat × Int := (code.length, absolutePos)
    match cacheLookup cache cacheKey with
    | some context => some (context, cache)
    | none =>
      let context := analyzeAbsolutePosition code absolutePos
      some (context, cacheSet cache cacheKey context)

/-- Result record of `findSafeFixZone`. -/
structure SafeZoneResult where
  isSafe : Bool
  reason : String
  context : LexicalContext
deriving DecidableEq, Repr

/-- The string-literal veto reason (interpolates `context.stringChar`). -/
def stringVetoReason (context : LexicalContext) : String :=
  "Position is inside a string literal (" ++
    (match context.stringChar with
     | some c => String.mk [c]
     | none => "undefined") ++ ")"

/-- The comment veto reason (interpolates `context.commentType`). -/
def commentVetoReason (context : LexicalContext) : String :=
  "Position is inside a " ++
    (match context.commentType with
     | some CommentType.single => "single"
     | some CommentType.multi => "multi"
     | none => "undefined") ++ " comment"

/-- The regex veto reason. -/
def regexVetoReason : String := "Position is inside a regular expression literal"

/-- The template-text veto reason. -/
def templateVetoReason : String := "Position is inside template literal text"

/-- The safe verdict's reason. -/
def safeReason : String := "Position is safe for modifications"

/-- `findSafeFixZone(code, error)`: classify `(error.line, error.column)`
through `analyzePosition`, then apply the vetoes in source order: string
literal, comment, regex literal, template text; otherwise safe. `none` models
the propagated throw of `getAbsolutePosition`. -/
def findSafeFixZone (cache : ContextCache) (code : List Char) (line column : Int) :
    Option (SafeZoneResult × ContextCache) :=
  match analyzePosition cache code line column with
  | none => none
  | some (context, cache') =>
    if context.inString then
      some ({ isSafe := false, reason := stringVetoReason context, context := context }, cache')
    else if context.inComment then
      some ({ isSafe := false, reason := commentVetoReason context, context := context }, cache')
    else if context.inRegex then
      some ({ isSafe := false, reason := regexVetoReason, context := context }, cache')
    else if context.inTemplate && !context.inTemplateExpression then
      some ({ isSafe := false, reason := templateVetoReason, context := context }, cache')
    else
      some ({ isSafe := true, reason := safeReason, context := context }, cache')

/-- An exception thrown by the JS host when `new Function(code)` rejects
`code` (`error.message` and `error.name`). -/
structure JsError where
  message : String
  name : String
deriving DecidableEq, Repr

/-- Structured diagnostic payload of a `ValidationResult` (`details`). -/
inductive ValidationDetails where
  | syntaxIssues (issues : List String)
  | syntaxPassed
  | syntaxThrown (syntaxError : String) (errorType : String)
deriving DecidableEq, Repr

/-- `ValidationResult` as produced by `validateSyntax`. -/
structure ValidationResult where
  isValid : Bool
  error : Option String
  warnings : List String
  details : ValidationDetails
deriving DecidableEq, Repr

/-- Truthiness test for `brackets[char]` (openers). -/
def isOpenBracket (c : Char) : Bool := c == '(' || c == '[' || c == '\x7b'

/-- Membership test for `Object.values(brackets).includes(char)` (closers). -/
def isCloseBracket (c : Char) : Bool := c == ')' || c == ']' || c == '\x7d'

/-- The closer matching an opener (`brackets[last.char]`). -/
def bracketClose (c : Char) : Char :=
  if c == '(' then ')' else if c == '[' then ']' else '\x7d'

/-- The `Unmatched bracket '<c>' at position <i>` warning. -/
def unmatchedBracketMsg (c : Char) (i : Nat) : String :=
  "Unmatched bracket \x27" ++ String.mk [c] ++ "\x27 at position " ++ toString i

/-- The `Unclosed bracket '<c>' at position <i>` warning. -/
def unclosedBracketMsg (c : Char) (i : Nat) : String :=
  "Unclosed bracket \x27" ++ String.mk [c] ++ "\x27 at position " ++ toString i

/-- One step of `checkCommonSyntaxIssues`' bracket loop: the state is the
open-bracket stack (top first, as pushed/popped by `push`/`pop`) and the
issue list collected so far; the input is `(position, char)`. -/
def bracketStep (st : List (Char × Nat) × List String) (p : Nat × Char) :
    List (Char × Nat) × List String :=
  let (stack, issues) := st
  let (i, c) := p
  if isOpenBracket c then ((c, i) :: stack, issues)
  else if isCloseBracket c then
    match stack with
    | [] => ([], issues ++ [unmatchedBracketMsg c i])
    | (oc, op) :: rest =>
      if bracketClose oc == c then (rest, issues)
      else
        let _ := op
        (rest, issues ++ [unmatchedBracketMsg c i])
  else (stack, issues)

/-- `checkCommonSyntaxIssues(code)`: the bracket-balance scan (unmatched
closers in scan order, then the still-open openers in insertion order), then
the Babel parse attempt whose error, if any, is appended. -/
def checkCommonSyntaxIssues (babel : List Char → Option String) (code : List Char) :
    List String :=
  let r := code.enum.foldl bracketStep ([], [])
  let issues := r.2 ++ r.1.reverse.map (fun p => unclosedBracketMsg p.1 p.2)
  match babel code with
  | some msg => issues ++ ["Syntax error: " ++ msg]
  | none => issues

/-- `validateSyntax(code)`: `new Function(code)` first (its throw is caught
and reported alone), then `checkCommonSyntaxIssues`. -/
def validateSyntax (fn : List Char → Option JsError) (babel : List Char → Option String)
    (code : List Char) : ValidationResult :=
  match fn code with
  | some e =>
    { isValid := false
      error := some ("Syntax error: " ++ e.message)
      warnings := ["Code contains syntax errors that prevent execution"]
      details := ValidationDetails.syntaxThrown e.message e.name }
  | none =>
    let syntaxIssues := checkCommonSyntaxIssues babel code
    if 0 < syntaxIssues.length then
      { isValid := false
        error := some "Syntax validation failed"
        warnings := syntaxIssues
        details := ValidationDetails.syntaxIssues syntaxIssues }
    else
      { isValid := true
        error := none
        warnings := []
        details := ValidationDetails.syntaxPassed }

/-- Result record of the exported `safeReplace` of `globalFunction.jsx`. -/
structure ReplaceResult where
  success : Bool
  code : List Char
  message : String
  warnings : List String
deriving DecidableEq, Repr

/-- The exported `safeReplace(code, line, column, length, replacement)`:
consult the gate, splice `replacement` over `[absolutePos, absolutePos +
length)` (JS `substring` clamps both indices to the buffer), validate the
spliced buffer, and catch any internal throw as a structured failure (the
caught message text is host-generated and not modelled beyond its
`Error during replacement: ` prefix). -/
def safeReplace (fn : List Char → Option JsError) (babel : List Char → Option String)
    (cache : ContextCache) (code : List Char) (line column length : Int)
    (replacement : List Char) : ReplaceResult × ContextCache :=
  match findSafeFixZone cache code line column with
  | none =>
    ({ success := false, code := code,
       message := "Error during replacement: ",
       warnings := ["Unexpected error occurred during text replacement"] }, cache)
  | some (safeZone, cache') =>
    if safeZone.isSafe = false then
      ({ success := false, code := code,
         message := "Cannot replace text: " ++ safeZone.reason,
         warnings := ["Position is not safe for modification"] }, cache')
    else
      match getAbsolutePosition code line column with
      | none =>
        ({ success := false, code := code,
           message := "Error during replacement: ",
           warnings := ["Unexpected error occurred during text replacement"] }, cache')
      | some absolutePos =>
        let beforeText := code.take absolutePos.toNat
        let afterText := code.drop (absolutePos + length).toNat
        let newCode := beforeText ++ replacement ++ afterText
        let validation := validateSyntax fn babel newCode
        if validation.isValid = false then
          ({ success := false, code := code,
             message := "Replacement would create invalid syntax: " ++
               (validation.error.getD "undefined"),
             warnings := validation.warnings }, cache')
        else
          ({ success := true, code := newCode,
             message := "Text replaced successfully", warnings := [] }, cache')

/-- `FixerBase.safeReplace(code, start, end, replacement)`: explicit bounds
check throwing `Invalid replacement bounds` (modelled as `Except.error`),
then the splice `code.slice(0, start) + replacement + code.slice(end)`. -/
def fixerSafeReplace (code : List Char) (start stop : Int) (replacement : List Char) :
    Except String (List Char) :=
  if start < 0 ∨ (code.length : Int) < stop ∨ stop < start then
    Except.error "Invalid replacement bounds"
  else
    Except.ok (code.take start.toNat ++ replacement ++ code.drop stop.toNat)

/-- A `FixRecord` of the fix history. `timestamp` (`new Date()` in the source)
is ambient host state and is passed in explicitly here. -/
structure FixRecord where
  ruleId : String
  line : Int
  column : Int
  originalText : String
  fixedText : String
  timestamp : Nat
deriving DecidableEq, Repr

/-- `recordFix`: push the record, then `shift()` the oldest entry off when
the history exceeds 100 entries. -/
def recordFix (history : List FixRecord) (r : FixRecord) : List FixRecord :=
  let h := history ++ [r]
  if 100 < h.length then h.tail else h

/-- A slash whose preceding character is a backslash is never treated as a
regex opener: `couldBeRegexStart` stops its whitespace scan at the backslash,
which is neither a listed preceder nor part of a keyword. Hence the
regex-opening heuristic and `isEscaped` can never both hold at one index. -/
theorem isEscaped_false_of_couldBeRegexStart (code : List Char) (i : Nat)
    (h : couldBeRegexStart code i = true) : isEscaped code i = false := by
  cases i with
  | zero => rfl
  | succ j =>
    by_cases hbs : code.getD j ' ' = '\\'
    · exfalso
      have hws : jsWhitespace (code.getD j ' ') = false := by rw [hbs]; rfl
      have h1 : skipWsBack code (j + 1) = j + 1 := by
        have e : skipWsBack code (j + 1) =
            if jsWhitespace (code.getD j ' ') then skipWsBack code j else j + 1 := rfl
        rw [e, hws]
        simp
      have hwd : isWordChar (code.getD j ' ') = false := by rw [hbs]; rfl
      have h2 : skipWordBack code (j + 1) = j + 1 := by
        have e : skipWordBack code (j + 1) =
            if isWordChar (code.getD j ' ') then skipWordBack code j else j + 1 := rfl
        rw [e, hwd]
        simp
      rw [couldBeRegexStart] at h
      simp only [h1, h2, Nat.add_sub_cancel, Nat.sub_self, List.take_zero] at h
      rw [hbs] at h
      simp [regexPreceders, regexKeywords] at h
    · have e : backslashRun code (j + 1) =
          if code.getD j ' ' == '\\' then backslashRun code j + 1 else 0 := rfl
      have hbs' : (code.getD j ' ' == '\\') = false := by
        simp only [beq_eq_false_iff_ne, ne_eq]
        exact hbs
      rw [isEscaped, e, hbs']
      simp

/-- The regex phase never leaves `inRegex` set: when the opening heuristic
fires at a `/`, the `End regex` check in the same iteration sees that very
`/` (which cannot be escaped, by `isEscaped_false_of_couldBeRegexStart`)
and clears the flag again. -/
theorem regexOpenClose_inRegex_false (code : List Char) (i : Nat) (s : ScanState)
    (h : s.inRegex = false) : (regexOpenClose code i s).inRegex = false := by
  unfold regexOpenClose
  dsimp only
  by_cases hopen : (!s.inSingleQuote && !s.inDoubleQuote && !s.inTemplate
      && (code.getD i ' ' == '/') && couldBeRegexStart code i) = true
  · have hsl : (code.getD i ' ' == '/') = true := by
      simp only [Bool.and_eq_true] at hopen
      exact hopen.1.2
    have hcould : couldBeRegexStart code i = true := by
      simp only [Bool.and_eq_true] at hopen
      exact hopen.2
    have hesc := isEscaped_false_of_couldBeRegexStart code i hcould
    rw [if_pos hopen, if_pos]
    · show (({ s with inRegex := true, regexContext := true } : ScanState).inRegex
        && (code.getD i ' ' == '/') && !isEscaped code i) = true
      rw [hsl, hesc]
      rfl
  · rw [if_neg hopen, if_neg]
    · exact h
    · show ¬(s.inRegex && (code.getD i ' ' == '/') && !isEscaped code i) = true
      simp [h]

/-- The string/template phase never touches `inRegex`. -/
theorem stringTemplateStep_inRegex (code : List Char) (i : Nat) (s : ScanState) :
    ((stringTemplateStep code i s).1).inRegex = s.inRegex := by
  unfold stringTemplateStep
  dsimp only
  repeat' split
  all_goals rfl

/-- One scanner iteration never leaves `inRegex` set. -/
theorem scanStep_inRegex_false (code : List Char) (i : Nat) (s : ScanState)
    (h : s.inRegex = false) : (scanStep code i s).1.inRegex = false := by
  unfold scanStep
  dsimp only
  split
  · exact h
  · split
    · exact h
    · generalize hs1 : (if s.inSingleComment && (code.getD i ' ' == '\n')
        then { s with inSingleComment := false } else s) = s1
      have h1 : s1.inRegex = false := by rw [← hs1]; split <;> exact h
      split
      · exact h1
      · split
        · exact h1
        · split
          · exact h1
          · generalize hs2 : regexOpenClose code i s1 = s2
            have h2 : s2.inRegex = false := by
              rw [← hs2]
              exact regexOpenClose_inRegex_false code i s1 h1
            split
            · exact h2
            · rw [stringTemplateStep_inRegex]
              exact h2

/-- The whole scan never leaves `inRegex` set. -/
theorem scanGo_inRegex_false (code : List Char) (position : Int) :
    ∀ fuel i s, s.inRegex = false → (scanGo code position fuel i s).inRegex = false := by
  intro fuel
  induction fuel with
  | zero => intro i s h; simpa [scanGo] using h
  | succ n ih =>
    intro i s h
    rw [scanGo]
    split
    · exact ih _ _ (scanStep_inRegex_false code i s h)
    · exact h

/-- Scanning to any position at or beyond the buffer length is the same scan:
the loop guard `i < position && i < code.length` is controlled by the length
alone in that regime. -/
theorem scanGo_eq_of_ge (code : List Char) (p₁ p₂ : Int)
    (h₁ : (code.length : Int) ≤ p₁) (h₂ : (code.length : Int) ≤ p₂) :
    ∀ fuel i s, scanGo code p₁ fuel i s = scanGo code p₂ fuel i s := by
  intro fuel
  induction fuel with
  | zero => intro i s; rfl
  | succ n ih =>
    intro i s
    rw [scanGo, scanGo]
    by_cases hi : i < code.length
    · have hi' : (i : Int) < (code.length : Int) := by exact_mod_cast hi
      have g₁ : (i : Int) < p₁ ∧ i < code.length := ⟨lt_of_lt_of_le hi' h₁, hi⟩
      have g₂ : (i : Int) < p₂ ∧ i < code.length := ⟨lt_of_lt_of_le hi' h₂, hi⟩
      rw [if_pos g₁, if_pos g₂]
      exact ih _ _
    · have g₁ : ¬((i : Int) < p₁ ∧ i < code.length) := fun hc => hi hc.2
      have g₂ : ¬((i : Int) < p₂ ∧ i < code.length) := fun hc => hi hc.2
      rw [if_neg g₁, if_neg g₂]

/-- A negative target position stops the scan before the first character. -/
theorem scanGo_stop_neg (code : List Char) (position : Int) (h : position < 0) :
    ∀ fuel s, scanGo code position fuel 0 s = s := by
  intro fuel s
  cases fuel with
  | zero => rfl
  | succ n =>
    rw [scanGo, if_neg]
    intro hc
    have h0 : ((0 : Nat) : Int) < position := hc.1
    rw [Nat.cast_zero] at h0
    omega

/-- C2 (amended): for a negative offset `analyzeAbsolutePosition` returns the
default not-special context; for an offset exceeding the buffer length it
clamps the scan to the buffer end, returning the classification at
`code.length` (not the default context). It is total, so it never throws. -/
theorem claim2_out_of_range_clamped :
    (∀ (code : List Char) (position : Int), position < 0 →
      analyzeAbsolutePosition code position = defaultLexicalContext) ∧
    (∀ (code : List Char) (position : Int), (code.length : Int) < position →
      analyzeAbsolutePosition code position
        = analyzeAbsolutePosition code (code.length : Int)) := by
  constructor
  · intro code position h
    unfold analyzeAbsolutePosition
    rw [scanGo_stop_neg code position h]
    rfl
  · intro code position h
    unfold analyzeAbsolutePosition
    rw [scanGo_eq_of_ge code position (code.length : Int) (le_of_lt h) (le_refl _)]

/-- C2 (counterexample): for the buffer `"` and the out-of-range offset 2,
`analyzeAbsolutePosition` reports `inString = true`, not the default
not-special context the claim requires for every out-of-range offset. -/
theorem claim2_out_of_range_cex :
    ((['"'] : List Char).length : Int) < 2 ∧
    (analyzeAbsolutePosition ['"'] 2).inString = true ∧
    analyzeAbsolutePosition ['"'] 2 ≠ defaultLexicalContext := by decide

/-- C2 (witness): the amended theorem applied to the buffer `a` at offsets
`-1` and `5`. -/
theorem claim2_out_of_range_clamped_witness :
    ((-1 : Int) < 0 ∧ analyzeAbsolutePosition ['a'] (-1) = defaultLexicalContext) ∧
    (((['a'] : List Char).length : Int) < 5 ∧
      analyzeAbsolutePosition ['a'] 5
        = analyzeAbsolutePosition ['a'] (((['a'] : List Char).length : Int))) :=
  ⟨⟨by decide, claim2_out_of_range_clamped.1 ['a'] (-1) (by decide)⟩,
   ⟨by decide, claim2_out_of_range_clamped.2 ['a'] 5 (by decide)⟩⟩

/-- C1 (code evaluation at the failing input): after `x = a / ` the position
is not in a regex, as the claim states; but after `return /` it is *also* not
in a regex, although `couldBeRegexStart` fires at that slash — the `End
regex` check clears the flag on the opening slash itself, so the claimed
`inRegex = true` can never be produced. -/
theorem claim1_regex_heuristic_dead :
    (analyzeAbsolutePosition "x = a / b".toList 7).inRegex = false ∧
    couldBeRegexStart "return /ab/".toList 7 = true ∧
    (analyzeAbsolutePosition "return /ab/".toList 8).inRegex = false := by decide

/-- C6: in `` `a${b}c` `` the offset of `b` is template + substitution, while
the offsets inside `a` and `c` are template text only. -/
theorem claim6_template_substitution :
    ((analyzeAbsolutePosition ['\x60', 'a', '$', '\x7b', 'b', '\x7d', 'c', '\x60'] 4).inTemplate = true ∧
     (analyzeAbsolutePosition ['\x60', 'a', '$', '\x7b', 'b', '\x7d', 'c', '\x60'] 4).inTemplateExpression = true) ∧
    ((analyzeAbsolutePosition ['\x60', 'a', '$', '\x7b', 'b', '\x7d', 'c', '\x60'] 1).inTemplate = true ∧
     (analyzeAbsolutePosition ['\x60', 'a', '$', '\x7b', 'b', '\x7d', 'c', '\x60'] 1).inTemplateExpression = false) ∧
    ((analyzeAbsolutePosition ['\x60', 'a', '$', '\x7b', 'b', '\x7d', 'c', '\x60'] 6).inTemplate = true ∧
     (analyzeAbsolutePosition ['\x60', 'a', '$', '\x7b', 'b', '\x7d', 'c', '\x60'] 6).inTemplateExpression = false) := by
  decide

/-- C10: the scanner's `inRegex` flag never survives an iteration, so no
position is ever classified as inside a regex literal, `isInRegex` is
constantly false, and `findSafeFixZone` (over any cache whose entries came
from scans) never issues the regex veto: every veto it can issue is the
string, comment or template one. -/
theorem claim10_inRegex_never_true :
    (∀ (code : List Char) (position : Int),
      (analyzeAbsolutePosition code position).inRegex = false) ∧
    (∀ (code : List Char) (position : Int), isInRegex code position = false) ∧
    (∀ (cache : ContextCache) (code : List Char) (line column : Int)
      (r : SafeZoneResult) (cache' : ContextCache),
      (∀ k ctx, cacheLookup cache k = some ctx → ctx.inRegex = false) →
      findSafeFixZone cache code line column = some (r, cache') →
      r.context.inRegex = false ∧
        (r.isSafe = false → r.reason = stringVetoReason r.context ∨
          r.reason = commentVetoReason r.context ∨ r.reason = templateVetoReason)) := by
  have hbase : ∀ (code : List Char) (position : Int),
      (analyzeAbsolutePosition code position).inRegex = false := by
    intro code position
    show (scanGo code position code.length 0 initScanState).inRegex = false
    exact scanGo_inRegex_false code position code.length 0 initScanState rfl
  refine ⟨hbase, fun code position => hbase code position, ?_⟩
  intro cache code line column r cache' hcache hfind
  unfold findSafeFixZone at hfind
  cases hap : analyzePosition cache code line column with
  | none => rw [hap] at hfind; exact absurd hfind (by simp)
  | some p =>
    obtain ⟨ctx, cache2⟩ := p
    rw [hap] at hfind
    have hctx : ctx.inRegex = false := by
      unfold analyzePosition at hap
      cases hg : getAbsolutePosition code line column with
      | none => rw [hg] at hap; exact absurd hap (by simp)
      | some pos =>
        rw [hg] at hap
        dsimp only at hap
        cases hl : cacheLookup cache (code.length, pos) with
        | some c0 =>
          rw [hl] at hap
          simp only [Option.some.injEq, Prod.mk.injEq] at hap
          rw [← hap.1]
          exact hcache _ c0 hl
        | none =>
          rw [hl] at hap
          simp only [Option.some.injEq, Prod.mk.injEq] at hap
          rw [← hap.1]
          exact hbase code pos
    dsimp only at hfind
    split_ifs at hfind with h1 h2 h3 h4
    · simp only [Option.some.injEq, Prod.mk.injEq] at hfind
      rw [← hfind.1]
      exact ⟨hctx, fun _ => Or.inl rfl⟩
    · simp only [Option.some.injEq, Prod.mk.injEq] at hfind
      rw [← hfind.1]
      exact ⟨hctx, fun _ => Or.inr (Or.inl rfl)⟩
    · exact absurd h3 (by simp [hctx])
    · simp only [Option.some.injEq, Prod.mk.injEq] at hfind
      rw [← hfind.1]
      exact ⟨hctx, fun _ => Or.inr (Or.inr rfl)⟩
    · simp only [Option.some.injEq, Prod.mk.injEq] at hfind
      rw [← hfind.1]
      exact ⟨hctx, fun hfalse => by simp at hfalse⟩

/-- C10 (witness): the constancy of `inRegex` and the no-regex-veto property
applied to the buffer `a` at offset 0 through a fresh analyzer. -/
theorem claim10_inRegex_never_true_witness :
    (analyzeAbsolutePosition ['a'] 0).inRegex = false ∧
    isInRegex ['a'] 0 = false ∧
    defaultLexicalContext.inRegex = false :=
  ⟨claim10_inRegex_never_true.1 ['a'] 0,
   claim10_inRegex_never_true.2.1 ['a'] 0,
   (claim10_inRegex_never_true.2.2 [] ['a'] 1 1
     { isSafe := true, reason := safeReason, context := defaultLexicalContext }
     [((1, 0), defaultLexicalContext)]
     (fun k ctx h => by simp [cacheLookup] at h)
     (by decide)).1⟩

/-- One `recordFix` call keeps a history of at most 100 entries at most
100 entries long. -/
theorem recordFix_length_le (history : List FixRecord) (r : FixRecord)
    (h : history.length ≤ 100) : (recordFix history r).length ≤ 100 := by
  unfold recordFix
  dsimp only
  split
  · rw [List.length_tail]
    simp only [List.length_append, List.length_singleton]
    omega
  · next hle =>
    simp only [List.length_append, List.length_singleton] at hle ⊢
    omega

/-- Folding `recordFix` preserves the 100-entry bound. -/
theorem foldl_recordFix_le (rs : List FixRecord) :
    ∀ h : List FixRecord, h.length ≤ 100 → (List.foldl recordFix h rs).length ≤ 100 := by
  induction rs with
  | nil => intro h hh; simpa using hh
  | cons r rs ih =>
    intro h hh
    rw [List.foldl_cons]
    exact ih _ (recordFix_length_le h r hh)

/-- While the bound is not yet reached, `recordFix` is a plain append. -/
theorem foldl_recordFix_eq_append (rs : List FixRecord) :
    ∀ h : List FixRecord, h.length + rs.length ≤ 100 →
      List.foldl recordFix h rs = h ++ rs := by
  induction rs with
  | nil => intro h _; simp
  | cons r rs ih =>
    intro h hh
    rw [List.foldl_cons]
    have h1 : recordFix h r = h ++ [r] := by
      unfold recordFix
      dsimp only
      rw [if_neg]
      simp only [List.length_append, List.length_singleton, List.length_cons,
        List.length_nil] at hh ⊢
      omega
    rw [h1, ih (h ++ [r]) (by simp at hh ⊢; omega)]
    simp

/-- C9: the fix history is a bounded FIFO — after any sequence of
`recordFix` calls starting from an empty history at most 100 records
remain, and after exactly 101 calls the history is the input sequence
minus its first record (oldest evicted, newest present). -/
theorem claim9_fix_history_fifo :
    (∀ rs : List FixRecord, (List.foldl recordFix [] rs).length ≤ 100) ∧
    (∀ rs : List FixRecord, rs.length = 101 →
      List.foldl recordFix [] rs = rs.drop 1) := by
  constructor
  · intro rs
    exact foldl_recordFix_le rs [] (by simp)
  · intro rs h101
    have hne : rs ≠ [] := by
      intro e
      rw [e] at h101
      simp at h101
    conv_lhs => rw [← List.dropLast_append_getLast hne]
    rw [List.foldl_append]
    rw [foldl_recordFix_eq_append rs.dropLast []
      (by simp [List.length_dropLast, h101])]
    rw [List.nil_append]
    show recordFix rs.dropLast (rs.getLast hne) = rs.drop 1
    unfold recordFix
    dsimp only
    rw [if_pos]
    · rw [List.dropLast_append_getLast hne, List.drop_one]
    · rw [List.length_append]
      simp [List.length_dropLast, h101]

/-- C9 (witness): 101 distinct records folded through `recordFix` leave
exactly records 2–101. -/
theorem claim9_fix_history_fifo_witness :
    ((List.range 101).map (fun n => FixRecord.mk "r" 1 1 "a" "b" n)).length = 101 ∧
    List.foldl recordFix []
        ((List.range 101).map (fun n => FixRecord.mk "r" 1 1 "a" "b" n))
      = ((List.range 101).map (fun n => FixRecord.mk "r" 1 1 "a" "b" n)).drop 1 :=
  ⟨by simp, claim9_fix_history_fifo.2 _ (by simp)⟩

/-- The Babel parse error of `checkCommonSyntaxIssues` is appended after the
bracket diagnostics, which do not depend on it. -/
theorem checkCommonSyntaxIssues_split (babel : List Char → Option String)
    (code : List Char) :
    checkCommonSyntaxIssues babel code =
      checkCommonSyntaxIssues (fun _ => none) code ++
        (babel code).elim [] (fun msg => ["Syntax error: " ++ msg]) := by
  unfold checkCommonSyntaxIssues
  cases babel code <;> simp

/-- C7 (amended): when the `new Function` gate does not throw,
`validateSyntax` surfaces the bracket-balance diagnostics and the Babel
parse error together in one result, each computed regardless of the other;
when `new Function` throws, `validateSyntax` returns only the generic
warning, without bracket diagnostics (see the counterexample). -/
theorem claim7_validateSyntax_both_checks (fn : List Char → Option JsError)
    (babel : List Char → Option String) (code : List Char) (h : fn code = none) :
    (validateSyntax fn babel code).warnings =
      checkCommonSyntaxIssues (fun _ => none) code ++
        (babel code).elim [] (fun msg => ["Syntax error: " ++ msg]) := by
  unfold validateSyntax
  rw [h]
  dsimp only
  split
  · exact checkCommonSyntaxIssues_split babel code
  · next hlen =>
    have hnil : checkCommonSyntaxIssues babel code = [] :=
      List.eq_nil_of_length_eq_zero (by omega)
    rw [← checkCommonSyntaxIssues_split babel code, hnil]

/-- C7 (counterexample): for the buffer `)(`, whose parse failure makes
`new Function` throw, `validateSyntax` returns only the generic warning:
the two bracket diagnostics that `checkCommonSyntaxIssues` would produce
are not surfaced, contradicting the claim that both checks' diagnostics
appear even when the parse fails. -/
theorem claim7_validateSyntax_gate_cex :
    (validateSyntax
        (fun c => if c = [')', '('] then some (JsError.mk "Unexpected token" "SyntaxError")
          else none)
        (fun _ => none) [')', '(']).warnings
      = ["Code contains syntax errors that prevent execution"] ∧
    checkCommonSyntaxIssues (fun _ => none) [')', '(']
      = [unmatchedBracketMsg ')' 0, unclosedBracketMsg '(' 1] ∧
    ((validateSyntax
        (fun c => if c = [')', '('] then some (JsError.mk "Unexpected token" "SyntaxError")
          else none)
        (fun _ => none) [')', '(']).warnings.contains (unmatchedBracketMsg ')' 0))
      = false := by decide

/-- C7 (witness): the amended theorem at a buffer with one unmatched bracket
and a failing Babel parse, under a non-throwing `new Function`. -/
theorem claim7_validateSyntax_both_checks_witness :
    (validateSyntax (fun _ => none) (fun _ => some "boom") [')']).warnings =
      checkCommonSyntaxIssues (fun _ => none) [')'] ++
        ((some "boom" : Option String).elim [] (fun msg => ["Syntax error: " ++ msg])) :=
  claim7_validateSyntax_both_checks (fun _ => none) (fun _ => some "boom") [')'] rfl

/-- C8 (counterexample): the exported `safeReplace` performs no bounds check:
replacing 5 characters at offset 0 of the 2-character buffer `ab` (span
`[0, 5)` extends past the end) succeeds and returns a modified buffer
instead of the claimed structured failure. -/
theorem claim8_safeReplace_bounds_cex :
    ((['a', 'b'] : List Char).length : Int) < 0 + 5 ∧
    (safeReplace (fun _ => none) (fun _ => none) [] ['a', 'b'] 1 1 5 ['x', 'y']).1.success
      = true ∧
    (safeReplace (fun _ => none) (fun _ => none) [] ['a', 'b'] 1 1 5 ['x', 'y']).1.code
      = ['x', 'y'] := by decide

/-- C8 (amended): only `FixerBase.safeReplace` treats malformed replacement
bounds as an explicit failure: whenever the span escapes the buffer
(`start < 0`, `end > code.length`, or `end < start`) it throws
`Invalid replacement bounds`; the exported `safeReplace` clamps instead
(see the counterexample). -/
theorem claim8_fixer_bounds_error (code : List Char) (start stop : Int)
    (replacement : List Char)
    (h : start < 0 ∨ (code.length : Int) < stop ∨ stop < start) :
    fixerSafeReplace code start stop replacement
      = Except.error "Invalid replacement bounds" := by
  unfold fixerSafeReplace
  rw [if_pos h]

/-- C8 (witness): `FixerBase.safeReplace` on a span past the buffer end. -/
theorem claim8_fixer_bounds_error_witness :
    ((0 : Int) < 0 ∨ ((['a'] : List Char).length : Int) < 5 ∨ (5 : Int) < 0) ∧
    fixerSafeReplace ['a'] 0 5 [] = Except.error "Invalid replacement bounds" :=
  ⟨by decide, claim8_fixer_bounds_error ['a'] 0 5 [] (by decide)⟩

/-- C3: `safeReplace` is atomic — every result either reports failure with
the original buffer byte-for-byte, or reports success with exactly
prefix-before-offset ++ replacement ++ suffix-after-(offset+length), the
spliced buffer having passed `validateSyntax`. -/
theorem claim3_safeReplace_atomic (fn : List Char → Option JsError)
    (babel : List Char → Option String) (cache : ContextCache) (code : List Char)
    (line column length : Int) (replacement : List Char) :
    ((safeReplace fn babel cache code line column length replacement).1.success = false ∧
      (safeReplace fn babel cache code line column length replacement).1.code = code) ∨
    ((safeReplace fn babel cache code line column length replacement).1.success = true ∧
      ∃ pos, getAbsolutePosition code line column = some pos ∧
        (safeReplace fn babel cache code line column length replacement).1.code =
          code.take pos.toNat ++ replacement ++ code.drop (pos + length).toNat ∧
        (validateSyntax fn babel
            (code.take pos.toNat ++ replacement ++ code.drop (pos + length).toNat)).isValid
          = true) := by
  unfold safeReplace
  cases hf : findSafeFixZone cache code line column with
  | none => exact Or.inl ⟨rfl, rfl⟩
  | some p =>
    obtain ⟨sz, cache'⟩ := p
    dsimp only
    split
    · exact Or.inl ⟨rfl, rfl⟩
    · cases hg : getAbsolutePosition code line column with
      | none => exact Or.inl ⟨rfl, rfl⟩
      | some pos =>
        dsimp only
        split
        · exact Or.inl ⟨rfl, rfl⟩
        · next hval =>
          refine Or.inr ⟨rfl, pos, rfl, rfl, ?_⟩
          cases hb : (validateSyntax fn babel
              (code.take pos.toNat ++ replacement ++ code.drop (pos + length).toNat)).isValid
          · exact absurd hb hval
          · rfl

/-- A cache is faithful to a buffer when every entry stored under that
buffer's length was computed by scanning that buffer. -/
def CacheFaithful (cache : ContextCache) (code : List Char) : Prop :=
  ∀ pos ctx, cacheLookup cache (code.length, pos) = some ctx →
    ctx = analyzeAbsolutePosition code pos

/-- Lookup after `Map.set`. -/
theorem cacheLookup_cacheSet (cache : ContextCache) (k k' : Nat × Int)
    (v : LexicalContext) :
    cacheLookup (cacheSet cache k v) k' =
      if k' = k then some v else cacheLookup cache k' := by
  induction cache with
  | nil =>
    by_cases h : k' = k
    · subst h; simp [cacheSet, cacheLookup]
    · have h' : ¬(k = k') := fun e => h e.symm
      simp [cacheSet, cacheLookup, h, h']
  | cons hd tl ih =>
    obtain ⟨k₁, v₁⟩ := hd
    by_cases h1 : k₁ = k <;> by_cases h2 : k' = k <;> by_cases h3 : k₁ = k' <;>
      simp_all [cacheSet, cacheLookup]

/-- C4 (amended): the cache is transparent as long as it is faithful to the
queried buffer — in particular on a fresh or just-cleared analyzer, and under
any earlier calls on the same buffer — and querying preserves faithfulness;
but entries are shared across distinct equal-length buffers, so a stale
context can be returned for a different buffer of the same length (see the
counterexample). -/
theorem claim4_cache_transparent_when_faithful :
    ∀ (cache : ContextCache) (code : List Char) (line column : Int),
      CacheFaithful cache code →
      ((analyzePosition cache code line column).map Prod.fst =
        (getAbsolutePosition code line column).map
          (fun pos => analyzeAbsolutePosition code pos)) ∧
      (∀ ctx cache', analyzePosition cache code line column = some (ctx, cache') →
        CacheFaithful cache' code) := by
  intro cache code line column hfaith
  constructor
  · unfold analyzePosition
    cases hg : getAbsolutePosition code line column with
    | none => rfl
    | some pos =>
      dsimp only
      cases hl : cacheLookup cache (code.length, pos) with
      | some c0 =>
        dsimp only [Option.map]
        rw [hfaith pos c0 hl]
      | none => rfl
  · intro ctx cache' happ
    unfold analyzePosition at happ
    cases hg : getAbsolutePosition code line column with
    | none => rw [hg] at happ; exact absurd happ (by simp)
    | some pos =>
      rw [hg] at happ
      dsimp only at happ
      cases hl : cacheLookup cache (code.length, pos) with
      | some c0 =>
        rw [hl] at happ
        simp only [Option.some.injEq, Prod.mk.injEq] at happ
        rw [← happ.2]
        exact hfaith
      | none =>
        rw [hl] at happ
        simp only [Option.some.injEq, Prod.mk.injEq] at happ
        rw [← happ.2]
        intro pos' ctx' hlk
        rw [cacheLookup_cacheSet] at hlk
        by_cases he : ((code.length, pos') : Nat × Int) = (code.length, pos)
        · rw [if_pos he] at hlk
          have hp : pos' = pos := by
            have := congrArg Prod.snd he
            simpa using this
          rw [hp]
          simp only [Option.some.injEq] at hlk
          exact hlk.symm
        · rw [if_neg he] at hlk
          exact hfaith pos' ctx' hlk

/-- C4 (witness): transparency on a fresh analyzer. -/
theorem claim4_cache_transparent_when_faithful_witness :
    (analyzePosition [] ['a'] 1 1).map Prod.fst =
      (getAbsolutePosition ['a'] 1 1).map (fun pos => analyzeAbsolutePosition ['a'] pos) :=
  (claim4_cache_transparent_when_faithful [] ['a'] 1 1
    (fun pos ctx h => by simp [cacheLookup] at h)).1

/-- C4 (counterexample): a query on the 2-character buffer `"x` at offset 2,
followed by a query on the distinct equal-length buffer `xy` at the same
offset through the same analyzer, returns the first buffer's `inString = true`
context, while a direct scan of the second buffer reports `inString = false`:
the cache is observable. -/
theorem claim4_cache_collision_cex :
    ((analyzePosition [] ['"', 'x'] 1 3).bind
        (fun p => analyzePosition p.2 ['x', 'y'] 1 3)).map (fun p => p.1.inString)
      = some true ∧
    (analyzeAbsolutePosition ['x', 'y'] 2).inString = false := by decide

/-- The buffer `` `//not a comment` `` of the safe-edit veto-precedence
claim. -/
def templateCommentBuffer : List Char := ['\x60'] ++ "//not a comment".toList ++ ['\x60']

/-- C5: the gate applies its vetoes in the fixed order string literal,
comment, regex literal, template text outside a substitution, and is safe
otherwise; and for every offset inside `` `//not a comment` `` the issued
veto is the template one — never the comment one, since comment detection is
disabled inside a template. -/
theorem claim5_veto_precedence :
    (∀ (cache : ContextCache) (code : List Char) (line column : Int)
      (r : SafeZoneResult) (cache' : ContextCache) (ctx : LexicalContext)
      (cache2 : ContextCache),
      findSafeFixZone cache code line column = some (r, cache') →
      analyzePosition cache code line column = some (ctx, cache2) →
      ((r.isSafe = true ↔ (ctx.inString = false ∧ ctx.inComment = false ∧
          ctx.inRegex = false ∧ (ctx.inTemplate = true → ctx.inTemplateExpression = true))) ∧
        (ctx.inString = true → r.reason = stringVetoReason ctx) ∧
        (ctx.inString = false → ctx.inComment = true → r.reason = commentVetoReason ctx) ∧
        (ctx.inString = false → ctx.inComment = false → ctx.inRegex = true →
          r.reason = regexVetoReason) ∧
        (ctx.inString = false → ctx.inComment = false → ctx.inRegex = false →
          ctx.inTemplate = true → ctx.inTemplateExpression = false →
          r.reason = templateVetoReason) ∧
        (r.isSafe = true → r.reason = safeReason))) ∧
    (∀ o : Nat, o < 17 → 1 ≤ o →
      (findSafeFixZone [] templateCommentBuffer 1 ((o : Int) + 1)).map
          (fun p => (p.1.reason, p.1.context.inComment))
        = some (templateVetoReason, false)) := by
  constructor
  · intro cache code line column r cache' ctx cache2 hfind hap
    unfold findSafeFixZone at hfind
    rw [hap] at hfind
    dsimp only at hfind
    split_ifs at hfind with h1 h2 h3 h4
    · simp only [Option.some.injEq, Prod.mk.injEq] at hfind
      rw [← hfind.1]
      simp [h1]
    · simp only [Option.some.injEq, Prod.mk.injEq] at hfind
      rw [← hfind.1]
      simp_all
    · simp only [Option.some.injEq, Prod.mk.injEq] at hfind
      rw [← hfind.1]
      simp_all
    · simp only [Option.some.injEq, Prod.mk.injEq] at hfind
      rw [← hfind.1]
      simp only [Bool.and_eq_true, Bool.not_eq_true'] at h4
      simp_all
    · simp only [Option.some.injEq, Prod.mk.injEq] at hfind
      rw [← hfind.1]
      simp only [Bool.and_eq_true, Bool.not_eq_true'] at h4
      simp_all
  · decide

/-- C5 (witness): both parts at the offset of the first `/` inside the
template buffer. -/
theorem claim5_veto_precedence_witness :
    ((1 : Nat) < 17 ∧ 1 ≤ (1 : Nat) ∧
      (findSafeFixZone [] templateCommentBuffer 1 (((1 : Nat) : Int) + 1)).map
          (fun p => (p.1.reason, p.1.context.inComment))
        = some (templateVetoReason, false)) ∧
    (SafeZoneResult.mk false templateVetoReason
        (LexicalContext.mk false false false true false (some '\x60') none)).reason
      = templateVetoReason :=
  ⟨⟨by decide, by decide, claim5_veto_precedence.2 1 (by decide) (by decide)⟩,
   (claim5_veto_precedence.1 [] templateCommentBuffer 1 2
      (SafeZoneResult.mk false templateVetoReason
        (LexicalContext.mk false false false true false (some '\x60') none))
      [((17, 1), LexicalContext.mk false false false true false (some '\x60') none)]
      (LexicalContext.mk false false false true false (some '\x60') none)
      [((17, 1), LexicalContext.mk false false false true false (some '\x60') none)]
      (by decide) (by decide)).2.2.2.2.1 rfl rfl rfl rfl rfl⟩
